import Mathlib

/-
Verification of the data engine of the SimplifyTable repository.

The embedding covers the pieces of the engine the design document makes
claims about: static filtering and pagination (staticDataFetcher.js),
quote aware CSV parsing (csvFetcher.js, the static variant), response
classification (apiFetcher.js), the fetch cache (fetchApi.js), and the
pagination planners (pagination.js, paginationRenderer.js).

JavaScript strings are modelled as Lean String values.  The character
level operations below mirror the JavaScript string methods the code
uses; they stay on the ASCII fragment the data of this widget lives in.
-/

namespace SimplifyTable

/-- Contiguous substring test over character lists, mirroring the
JavaScript method String.prototype.includes: the needle must occur
contiguously inside the haystack. -/
def listIncludes (needle : List Char) : List Char → Bool
  | [] => needle.isEmpty
  | c :: rest => needle.isPrefixOf (c :: rest) || listIncludes needle rest

/-- Lower casing character by character, mirroring
String.prototype.toLowerCase on ASCII data. -/
def jsToLower (s : String) : String := String.mk (s.data.map Char.toLower)

/-- Substring test on strings: jsIncludes s sub mirrors s.includes(sub). -/
def jsIncludes (s sub : String) : Bool := listIncludes sub.data s.data

theorem isPrefixOf_prefix_iff (l₁ l₂ : List Char) :
    l₁.isPrefixOf l₂ = true ↔ l₁ <+: l₂ := by
  induction l₁ generalizing l₂ with
  | nil => simp [List.isPrefixOf]
  | cons a as ih =>
    cases l₂ with
    | nil => simp [List.isPrefixOf]
    | cons b bs =>
      simp [List.isPrefixOf, List.cons_prefix_cons, ih, Bool.and_eq_true, beq_iff_eq]

theorem listIncludes_infix_iff (needle hay : List Char) :
    listIncludes needle hay = true ↔ needle <:+: hay := by
  induction hay with
  | nil => simp [listIncludes, List.isEmpty_iff, List.infix_nil]
  | cons c rest ih =>
    simp [listIncludes, Bool.or_eq_true, ih, isPrefixOf_prefix_iff, List.infix_cons_iff]

/-- Record: a JavaScript object mapping column names to field values.  The
values are kept in the string form that the filter compares, the image of
String(item[key]) in staticDataFetcher.js line 17. -/
abbrev Record := List (String × String)

/-- Field read item[key] followed by String(...): a missing field reads as
the undefined value, whose string form is "undefined". -/
def jsGet (r : Record) (k : String) : String := (List.lookup k r).getD "undefined"

/-- One per column filter predicate of StaticDataFetcher.filterStaticData,
lines 15 to 18: the lower cased string form of the field must contain the
lower cased parameter value. -/
def filterMatch (key value : String) (item : Record) : Bool :=
  jsIncludes (jsToLower (jsGet item key)) (jsToLower value)

/-- Lines 13 to 20 of staticDataFetcher.js: every key of the params object
other than page and limit narrows the result list by one substring filter.
The params object is modelled as the list of its key and value pairs in
iteration order. -/
def filterRecords (data : List Record) (params : List (String × String)) : List Record :=
  params.foldl
    (fun results kv =>
      if kv.1 = "page" || kv.1 = "limit" then results
      else results.filter (fun item => filterMatch kv.1 kv.2 item))
    data

/-- Query parameters of the engine: the non reserved keys in iteration
order, and the numeric values of the reserved page and limit keys when
present. -/
structure QueryParams where
  filters : List (String × String)
  page : Option Nat
  limit : Option Nat
deriving DecidableEq

/-- Result shape returned by filterStaticData. -/
structure QueryResult where
  results : List Record
  totalResults : Nat
deriving DecidableEq

/-- Truthiness of an optional numeric parameter, as in the test
params.page || params.limit: absent and zero are falsy. -/
def truthy : Option Nat → Bool
  | some n => n != 0
  | none => false

/-- The JavaScript default pattern x ? x : d, and likewise x || d, for an
optional numeric value: zero and absent both fall back to the default. -/
def orDefault : Option Nat → Nat → Nat
  | some n, d => if n = 0 then d else n
  | none, d => d

/-- Array.prototype.slice(s, e) restricted to 0 ≤ s ≤ e, the only use in
filterStaticData. -/
def jsSlice (l : List Record) (s e : Nat) : List Record := (l.drop s).take (e - s)

/-- StaticDataFetcher.filterStaticData, staticDataFetcher.js lines 10 to 35.
Line 11 of the source first unwraps a data.results field when the input is
a wrapped object; the model receives the unwrapped record list. -/
def StaticDataFetcher.filterStaticData (data : List Record) (params : QueryParams) :
    QueryResult :=
  let results := filterRecords data params.filters
  let totalResults := results.length
  if truthy params.page || truthy params.limit then
    let page := orDefault params.page 1
    let limit := orDefault params.limit 10
    let start := (page - 1) * limit
    let stop := page * limit
    ⟨jsSlice results start stop, totalResults⟩
  else
    ⟨results, totalResults⟩

/-- C1: a record is retained by the filter of the Query Engine exactly when,
for every key of the params other than page and limit, the lower cased
params value is a contiguous substring of the lower cased string form of
the same named field (logical AND across all such filters); with zero such
keys every record is retained.  In particular the filter a = "1" applied to
the records a = "10" and a = "2" retains only a = "10". -/
theorem filterRecords_and_semantics :
    (∀ (data : List Record) (params : List (String × String)) (r : Record),
      r ∈ filterRecords data params ↔
        r ∈ data ∧ ∀ kv ∈ params, kv.1 ≠ "page" → kv.1 ≠ "limit" →
          (jsToLower kv.2).data <:+: (jsToLower (jsGet r kv.1)).data) ∧
    filterRecords [[("a", "10")], [("a", "2")]] [("a", "1")] = [[("a", "10")]] := by
  constructor
  · intro data params
    induction params generalizing data with
    | nil => simp [filterRecords]
    | cons kv rest ih =>
      intro r
      have step :
          filterRecords data (kv :: rest)
            = filterRecords
                (if kv.1 = "page" || kv.1 = "limit" then data
                 else data.filter (fun item => filterMatch kv.1 kv.2 item)) rest := by
        simp [filterRecords]
      rw [step]
      by_cases hres : kv.1 = "page" || kv.1 = "limit"
      · rw [if_pos hres, ih]
        rcases (by simpa using hres : kv.1 = "page" ∨ kv.1 = "limit") with hk | hk
        · constructor
          · rintro ⟨hd, hall⟩
            exact ⟨hd, by
              intro kv' hkv' h1 h2
              rcases List.mem_cons.mp hkv' with rfl | hmem
              · exact absurd hk h1
              · exact hall kv' hmem h1 h2⟩
          · rintro ⟨hd, hall⟩
            exact ⟨hd, fun kv' hmem h1 h2 => hall kv' (List.mem_cons_of_mem _ hmem) h1 h2⟩
        · constructor
          · rintro ⟨hd, hall⟩
            exact ⟨hd, by
              intro kv' hkv' h1 h2
              rcases List.mem_cons.mp hkv' with rfl | hmem
              · exact absurd hk h2
              · exact hall kv' hmem h1 h2⟩
          · rintro ⟨hd, hall⟩
            exact ⟨hd, fun kv' hmem h1 h2 => hall kv' (List.mem_cons_of_mem _ hmem) h1 h2⟩
      · rw [if_neg hres, ih]
        have hne : kv.1 ≠ "page" ∧ kv.1 ≠ "limit" := by
          constructor <;> intro hk <;> exact hres (by simp [hk])
        constructor
        · rintro ⟨hd, hall⟩
          have hd' := List.mem_filter.mp hd
          refine ⟨hd'.1, ?_⟩
          intro kv' hkv' h1 h2
          rcases List.mem_cons.mp hkv' with rfl | hmem
          · exact (listIncludes_infix_iff _ _).mp (by simpa [filterMatch, jsIncludes] using hd'.2)
          · exact hall kv' hmem h1 h2
        · rintro ⟨hd, hall⟩
          refine ⟨List.mem_filter.mpr ⟨hd, ?_⟩, ?_⟩
          · have := hall kv (List.mem_cons_self _ _) hne.1 hne.2
            simpa [filterMatch, jsIncludes] using (listIncludes_infix_iff _ _).mpr this
          · exact fun kv' hmem h1 h2 => hall kv' (List.mem_cons_of_mem _ hmem) h1 h2
  · decide

/-- Witness for C1: the membership characterisation applied at the concrete
filter of the claim. -/
theorem filterRecords_and_semantics_witness :
    ([("a", "10")] : Record) ∈ filterRecords [[("a", "10")], [("a", "2")]] [("a", "1")] :=
  (filterRecords_and_semantics.1 [[("a", "10")], [("a", "2")]] [("a", "1")]
    [("a", "10")]).mpr ⟨by decide, by decide⟩

/-- C2: with page or limit present the returned window is the slice from
(page - 1) * limit to page * limit of the filtered set, clamped to its
bounds; with both absent the window is the full filtered set; in all cases
totalResults is the size of the full filtered set, the window never holds
more than limit records, and the window is empty once
(page - 1) * limit reaches totalResults.  The defaults are page 1 and
limit 10 when only one of the two keys is present. -/
theorem filterStaticData_window_spec (data : List Record)
    (fs : List (String × String)) (page limit : Nat)
    (hp : 1 ≤ page) (hl : 1 ≤ limit) :
    (StaticDataFetcher.filterStaticData data ⟨fs, some page, some limit⟩).totalResults
        = (filterRecords data fs).length ∧
    (StaticDataFetcher.filterStaticData data ⟨fs, some page, some limit⟩).results
        = ((filterRecords data fs).drop ((page - 1) * limit)).take limit ∧
    (StaticDataFetcher.filterStaticData data ⟨fs, some page, some limit⟩).results.length
        ≤ limit ∧
    ((filterRecords data fs).length ≤ (page - 1) * limit →
      (StaticDataFetcher.filterStaticData data ⟨fs, some page, some limit⟩).results = []) ∧
    StaticDataFetcher.filterStaticData data ⟨fs, none, none⟩
        = ⟨filterRecords data fs, (filterRecords data fs).length⟩ ∧
    (StaticDataFetcher.filterStaticData data ⟨fs, some page, none⟩).results
        = ((filterRecords data fs).drop ((page - 1) * 10)).take 10 ∧
    (StaticDataFetcher.filterStaticData data ⟨fs, none, some limit⟩).results
        = (filterRecords data fs).take limit := by
  have hp0 : ¬ page = 0 := by omega
  have hl0 : ¬ limit = 0 := by omega
  have hpage : orDefault (some page) 1 = page := by simp [orDefault, hp0]
  have hlimit : orDefault (some limit) 10 = limit := by simp [orDefault, hl0]
  have htp : truthy (some page) = true := by simp [truthy, hp0]
  have htl : truthy (some limit) = true := by simp [truthy, hl0]
  have hwidth : page * limit - (page - 1) * limit = limit := by
    rw [← Nat.sub_mul]
    have h1 : page - (page - 1) = 1 := by omega
    rw [h1, one_mul]
  have hwidth10 : page * 10 - (page - 1) * 10 = 10 := by
    rw [← Nat.sub_mul]
    have h1 : page - (page - 1) = 1 := by omega
    rw [h1, one_mul]
  refine ⟨?_, ?_, ?_, ?_, ?_, ?_, ?_⟩
  · simp [StaticDataFetcher.filterStaticData, htp, htl]
  · simp [StaticDataFetcher.filterStaticData, htp, htl, hpage, hlimit, jsSlice, hwidth]
  · simp only [StaticDataFetcher.filterStaticData, htp, htl, hpage, hlimit, jsSlice, hwidth,
      Bool.true_or, if_pos]
    simp
  · intro hover
    simp only [StaticDataFetcher.filterStaticData, htp, htl, hpage, hlimit, jsSlice, hwidth,
      Bool.true_or, if_pos]
    rw [List.drop_eq_nil_of_le (by simpa using hover), List.take_nil]
  · simp [StaticDataFetcher.filterStaticData, truthy]
  · simp [StaticDataFetcher.filterStaticData, htp, truthy, hpage, orDefault, jsSlice, hwidth10,
      hp0]
  · simp [StaticDataFetcher.filterStaticData, htl, truthy, hlimit, orDefault, jsSlice, hl0]

/-- Witness for C2 at a concrete dataset, page 2 and limit 1. -/
theorem filterStaticData_window_spec_witness :
    1 ≤ 2 ∧ 1 ≤ 1 ∧
    (StaticDataFetcher.filterStaticData
        [[("a", "1")], [("a", "2")], [("a", "3")]] ⟨[], some 2, some 1⟩).results
      = ((filterRecords [[("a", "1")], [("a", "2")], [("a", "3")]] []).drop ((2 - 1) * 1)).take 1 :=
  ⟨by decide, by decide,
    (filterStaticData_window_spec [[("a", "1")], [("a", "2")], [("a", "3")]] [] 2 1
      (by decide) (by decide)).2.1⟩

/-! CSV parsing, csvFetcher.js (static class CsvFetcher).  The string
methods split, trim and the field regular expression are modelled on
character lists so that every step is executable. -/

/-- String.prototype.split with a one character separator: one part per
separator occurrence plus one, empty parts preserved. -/
def splitChar (sep : Char) : List Char → List (List Char)
  | [] => [[]]
  | c :: rest =>
    let r := splitChar sep rest
    if c = sep then [] :: r
    else
      match r with
      | cur :: tail => (c :: cur) :: tail
      | [] => [[c]]

/-- String.prototype.trim on the ASCII whitespace the data uses. -/
def trimChars (l : List Char) : List Char :=
  ((l.dropWhile Char.isWhitespace).reverse.dropWhile Char.isWhitespace).reverse

/-- Lookahead (?=\s*,|\s*$) of the field pattern: optional whitespace
followed by a comma or by the end of the line. -/
def regexLookahead (l : List Char) : Bool :=
  match l.dropWhile Char.isWhitespace with
  | [] => true
  | c :: _ => c = ','

/-- Lazy scan for ".*?" followed by a closing double quote whose position
satisfies the lookahead: the first closing quote that validates wins, a
rejected quote is consumed by the lazy dot.  Returns the span between the
quotes and the rest of the input. -/
def scanQuoted (acc : List Char) : List Char → Option (List Char × List Char)
  | [] => none
  | c :: rest =>
    if c = '"' && regexLookahead rest then some (acc.reverse, rest)
    else scanQuoted (c :: acc) rest

/-- One attempt of the field pattern (".*?"|[^,]+)(?=\s*,|\s*$) at the
current position.  The quoted alternative is tried first; the greedy
non comma alternative ends right before a comma or the end of the line,
where the lookahead always holds. -/
def matchAt (l : List Char) : Option (List Char × List Char) :=
  match l with
  | [] => none
  | c :: rest =>
    if c = '"' then
      match scanQuoted [] rest with
      | some (content, rest') => some ('"' :: (content ++ ['"']), rest')
      | none =>
        let run := (c :: rest).takeWhile (fun d => d ≠ ',')
        if run.isEmpty then none else some (run, (c :: rest).drop run.length)
    else
      let run := (c :: rest).takeWhile (fun d => d ≠ ',')
      if run.isEmpty then none else some (run, (c :: rest).drop run.length)

/-- Global matching of the field pattern: scan left to right, collect each
match and continue after it, advance one character where no match starts.
The fuel only bounds the recursion and equals the input length, which the
scan never exceeds because every step consumes at least one character. -/
def globalMatchAux : Nat → List Char → List (List Char)
  | 0, _ => []
  | _, [] => []
  | fuel + 1, c :: rest =>
    match matchAt (c :: rest) with
    | some (m, rest') => m :: globalMatchAux fuel rest'
    | none => globalMatchAux fuel rest

/-- All matches of the field pattern in a line. -/
def globalMatch (l : List Char) : List (List Char) := globalMatchAux l.length l

/-- JavaScript line.match(pattern) with the g flag: null when the line has
no match, modelled as none. -/
def jsMatchFields (line : List Char) : Option (List (List Char)) :=
  match globalMatch line with
  | [] => none
  | m :: ms => some (m :: ms)

/-- One layer of surrounding double quotes is stripped, the image of
replace(/^"(.*)"$/, "$1") on a line without newline characters. -/
def stripQuotes (l : List Char) : List Char :=
  match l with
  | '"' :: rest =>
    match rest with
    | [] => l
    | _ :: _ => if rest.getLast? = some '"' then rest.dropLast else l
  | _ => l

/-- Field list of one data line, csvFetcher.js lines 99 to 104: each raw
match is trimmed and unquoted, then the list is padded with the sentinel
"-" up to the number of header columns. -/
def csvValues (headers : List (List Char)) (ms : List (List Char)) : List (List Char) :=
  let values := ms.map (fun v => stripQuotes (trimChars v))
  values ++ List.replicate (headers.length - values.length) ['-']

/-- Record of one data line, csvFetcher.js lines 105 to 108: one entry per
header column, an empty field read as the sentinel "-". -/
def csvEntry (headers values : List (List Char)) : Record :=
  headers.enum.map (fun ih =>
    (String.mk ih.2,
      String.mk (if (values.getD ih.1 []).isEmpty then ['-'] else values.getD ih.1 [])))

/-- The reduce step over data lines, csvFetcher.js lines 95 to 111: a blank
line is skipped; a line on which the field pattern has no match makes
line.match return null and the following .map throw a TypeError, modelled
as none. -/
def csvReduceStep (headers : List (List Char)) (acc : List Record) (line : List Char) :
    Option (List Record) :=
  if (trimChars line).isEmpty then some acc
  else
    match jsMatchFields line with
    | none => none
    | some ms => some (acc ++ [csvEntry headers (csvValues headers ms)])

/-- CsvFetcher.csvToJson, csvFetcher.js lines 92 to 113.  The source wraps
the record list in an object with a results field; the model returns the
record list, none standing for the thrown TypeError. -/
def CsvFetcher.csvToJson (csv : String) : Option (List Record) :=
  let lines := splitChar '\n' csv.data
  let headers := (splitChar ',' (lines.headD [])).map trimChars
  (lines.drop 1).foldlM (csvReduceStep headers) []

theorem csvEntry_keys (headers values : List (List Char)) :
    (csvEntry headers values).map Prod.fst = headers.map String.mk := by
  simp only [csvEntry, List.map_map]
  have h : (Prod.fst ∘ fun ih : Nat × List Char =>
      (String.mk ih.2,
        String.mk (if (values.getD ih.1 []).isEmpty then ['-'] else values.getD ih.1 [])))
      = String.mk ∘ Prod.snd := rfl
  rw [h, ← List.map_map, List.enum_map_snd]

theorem csvFold_keys (headers : List (List Char)) :
    ∀ (lines : List (List Char)) (acc rows : List Record),
      List.foldlM (csvReduceStep headers) acc lines = some rows →
      (∀ r ∈ acc, r.map Prod.fst = headers.map String.mk) →
      ∀ r ∈ rows, r.map Prod.fst = headers.map String.mk := by
  intro lines
  induction lines with
  | nil =>
    intro acc rows h hacc
    simp only [List.foldlM_nil, Option.pure_def, Option.some.injEq] at h
    subst h
    exact hacc
  | cons line rest ih =>
    intro acc rows h hacc
    rw [List.foldlM_cons] at h
    cases hstep : csvReduceStep headers acc line with
    | none => rw [hstep] at h; simp at h
    | some acc' =>
      rw [hstep] at h
      simp only [Option.bind_eq_bind, Option.some_bind] at h
      refine ih acc' rows h ?_
      intro r hr
      unfold csvReduceStep at hstep
      by_cases hblank : (trimChars line).isEmpty = true
      · rw [if_pos hblank] at hstep
        cases hstep
        exact hacc r hr
      · rw [if_neg hblank] at hstep
        cases hmatch : jsMatchFields line with
        | none => rw [hmatch] at hstep; cases hstep
        | some ms =>
          rw [hmatch] at hstep
          cases hstep
          rcases List.mem_append.mp hr with hin | hin
          · exact hacc r hin
          · rcases List.mem_singleton.mp hin with rfl
            exact csvEntry_keys headers _

/-- C3: the quote aware CSV parser treats a double quoted span as one field
even when it embeds commas, trims each field, strips one layer of
surrounding quotes, and pads a short data line with the sentinel "-";
concretely the body "a,b\n1,\"x,y\"\n2\n" parses to the records
a = "1", b = "x,y" and a = "2", b = "-".  Moreover every parsed record
binds exactly the header columns, in header order. -/
theorem csvToJson_quoted_padding_spec :
    CsvFetcher.csvToJson "a,b\n1,\"x,y\"\n2\n"
        = some [[("a", "1"), ("b", "x,y")], [("a", "2"), ("b", "-")]] ∧
    (∀ (csv : String) (rows : List Record) (r : Record),
      CsvFetcher.csvToJson csv = some rows → r ∈ rows →
        r.map Prod.fst
          = (((splitChar ',' ((splitChar '\n' csv.data).headD [])).map trimChars).map
              String.mk)) := by
  constructor
  · decide
  · intro csv rows r h hr
    exact csvFold_keys _ _ [] rows h (by simp) r hr

/-- Witness for C3 at the concrete CSV body of the claim. -/
theorem csvToJson_quoted_padding_spec_witness :
    CsvFetcher.csvToJson "a,b\n1,\"x,y\"\n2\n"
        = some [[("a", "1"), ("b", "x,y")], [("a", "2"), ("b", "-")]] ∧
    ([("a", "1"), ("b", "x,y")] : Record).map Prod.fst
      = (((splitChar ','
            ((splitChar '\n' ("a,b\n1,\"x,y\"\n2\n" : String).data).headD [])).map
          trimChars).map String.mk) :=
  ⟨csvToJson_quoted_padding_spec.1,
    csvToJson_quoted_padding_spec.2 "a,b\n1,\"x,y\"\n2\n"
      [[("a", "1"), ("b", "x,y")], [("a", "2"), ("b", "-")]]
      [("a", "1"), ("b", "x,y")] csvToJson_quoted_padding_spec.1 (by decide)⟩

/-- C10: the parser is not total over non blank lines: a data line holding
a single comma is non blank yet has no match of the field pattern, so
line.match yields null and csvToJson throws a TypeError, modelled as none,
instead of returning a dataset or a typed parse error. -/
theorem csvToJson_comma_line_throws :
    trimChars (",".data) ≠ [] ∧
    jsMatchFields (",".data) = none ∧
    CsvFetcher.csvToJson "a\n," = none := by
  refine ⟨by decide, by decide, by decide⟩

/-! Response classification, apiFetcher.js (ResponseParser). -/

/-- Error kinds of the parse step: an unsupported content type carries the
offending content type; csvTypeError stands for the TypeError thrown out
of CsvFetcher.csvToJson. -/
inductive ParseError where
  | unsupported (contentType : String)
  | csvTypeError
deriving DecidableEq

/-- ResponseParser.parse, apiFetcher.js lines 29 to 39.  The response is
modelled by its declared content type and body text; the platform JSON
decoder response.json() is supplied as an oracle. -/
def ResponseParser.parse (jsonDecode : String → List Record)
    (contentType body : String) : Except ParseError (List Record) :=
  if jsIncludes contentType "application/json" then Except.ok (jsonDecode body)
  else if jsIncludes contentType "text/csv" then
    match CsvFetcher.csvToJson body with
    | some rs => Except.ok rs
    | none => Except.error ParseError.csvTypeError
  else Except.error (ParseError.unsupported contentType)

/-- C8: a content type indicating neither JSON nor CSV fails with an error
naming the offending content type; a JSON content type decodes the body as
structured data; a CSV content type converts the body text through the CSV
to JSON conversion; and in neither of the two supported cases does parse
produce an unsupported format error. -/
theorem responseParser_parse_spec (jsonDecode : String → List Record)
    (contentType body : String) :
    (jsIncludes contentType "application/json" = false →
      jsIncludes contentType "text/csv" = false →
      ResponseParser.parse jsonDecode contentType body
        = Except.error (ParseError.unsupported contentType)) ∧
    (jsIncludes contentType "application/json" = true →
      ResponseParser.parse jsonDecode contentType body = Except.ok (jsonDecode body)) ∧
    (jsIncludes contentType "text/csv" = true →
      jsIncludes contentType "application/json" = false →
      ResponseParser.parse jsonDecode contentType body
        = match CsvFetcher.csvToJson body with
          | some rs => Except.ok rs
          | none => Except.error ParseError.csvTypeError) ∧
    ((jsIncludes contentType "application/json" = true ∨
        jsIncludes contentType "text/csv" = true) →
      ∀ ct, ResponseParser.parse jsonDecode contentType body
        ≠ Except.error (ParseError.unsupported ct)) := by
  refine ⟨?_, ?_, ?_, ?_⟩
  · intro h1 h2
    simp [ResponseParser.parse, h1, h2]
  · intro h1
    simp [ResponseParser.parse, h1]
  · intro h1 h2
    simp [ResponseParser.parse, h1, h2]
  · intro hsupp ct
    by_cases hj : jsIncludes contentType "application/json" = true
    · simp [ResponseParser.parse, hj]
    · have hj' : jsIncludes contentType "application/json" = false := by simpa using hj
      have h1 : jsIncludes contentType "text/csv" = true := by
        rcases hsupp with h | h
        · rw [hj'] at h; cases h
        · exact h
      cases hcsv : CsvFetcher.csvToJson body <;>
        simp [ResponseParser.parse, hj', h1, hcsv]

/-- Witness for C8: text/html is rejected with the offending content type,
and the two supported content types take their branches. -/
theorem responseParser_parse_spec_witness :
    jsIncludes "text/html" "application/json" = false ∧
    jsIncludes "text/html" "text/csv" = false ∧
    jsIncludes "application/json" "application/json" = true ∧
    jsIncludes "text/csv" "text/csv" = true ∧
    ResponseParser.parse (fun _ => []) "text/html" "x"
      = Except.error (ParseError.unsupported "text/html") ∧
    ResponseParser.parse (fun _ => [[("a", "1")]]) "application/json" "x"
      = Except.ok [[("a", "1")]] ∧
    (∀ ct, ResponseParser.parse (fun _ => []) "text/csv" "a\n1"
      ≠ Except.error (ParseError.unsupported ct)) :=
  ⟨by decide, by decide, by decide, by decide,
    (responseParser_parse_spec (fun _ => []) "text/html" "x").1 (by decide) (by decide),
    (responseParser_parse_spec (fun _ => [[("a", "1")]]) "application/json" "x").2.1
      (by decide),
    (responseParser_parse_spec (fun _ => []) "text/csv" "a\n1").2.2.2
      (Or.inr (by decide))⟩

/-! Fetching and caching, fetchApi.js (DataCache, FetchData). -/

/-- Data source of a FetchData instance: the url field holds either an in
memory static object or a URL string. -/
inductive Source where
  | staticData (data : List Record)
  | remote (url : String)

/-- Mutable state crossing fetch calls: the shared cache store, plus a
count of transport invocations used to observe re fetching. -/
structure FetchState where
  cache : List (String × List Record)
  calls : Nat
deriving DecidableEq

/-- DataCache.get on the underlying store, fetchApi.js lines 115 to 117. -/
def cacheGet (cache : List (String × List Record)) (url : String) :
    Option (List Record) :=
  List.lookup url cache

/-- FetchData.fetch, fetchApi.js lines 149 to 169: a static object source is
filtered directly; a cached URL is answered from the cache; otherwise the
transport and response parser run (modelled as one oracle whose invocation
is counted) and a successful result is stored before filtering.  A failed
transport throws, modelled as none, and caches nothing. -/
def FetchData.fetch (transport : String → Option (List Record)) (source : Source)
    (params : QueryParams) (st : FetchState) : Option QueryResult × FetchState :=
  match source with
  | Source.staticData data => (some (StaticDataFetcher.filterStaticData data params), st)
  | Source.remote url =>
    match cacheGet st.cache url with
    | some data => (some (StaticDataFetcher.filterStaticData data params), st)
    | none =>
      match transport url with
      | some data =>
        (some (StaticDataFetcher.filterStaticData data params),
          ⟨(url, data) :: st.cache, st.calls + 1⟩)
      | none => (none, ⟨st.cache, st.calls + 1⟩)

/-- C4: once the cache holds a dataset for key K, every later query for K is
answered purely by filtering the cached dataset and leaves the state, the
transport call count included, unchanged; the cache entry for K survives
every later fetch of any source; a static source is filtered directly and
never creates or touches a cache entry; and a first successful fetch of an
uncached key stores the parsed dataset under that key. -/
theorem fetchData_cache_spec (transport : String → Option (List Record))
    (url : String) (data : List Record) (st : FetchState)
    (h : cacheGet st.cache url = some data) :
    (∀ params, FetchData.fetch transport (Source.remote url) params st
      = (some (StaticDataFetcher.filterStaticData data params), st)) ∧
    (∀ source params,
      cacheGet ((FetchData.fetch transport source params st).2).cache url = some data) ∧
    (∀ d params st', FetchData.fetch transport (Source.staticData d) params st'
      = (some (StaticDataFetcher.filterStaticData d params), st')) ∧
    (∀ (url' : String) (d : List Record) params,
      cacheGet st.cache url' = none → transport url' = some d →
      FetchData.fetch transport (Source.remote url') params st
        = (some (StaticDataFetcher.filterStaticData d params),
            ⟨(url', d) :: st.cache, st.calls + 1⟩)) := by
  refine ⟨?_, ?_, ?_, ?_⟩
  · intro params
    simp [FetchData.fetch, h]
  · intro source params
    cases source with
    | staticData d => exact h
    | remote url' =>
      cases hc : cacheGet st.cache url' with
      | some d =>
        have hstep : FetchData.fetch transport (Source.remote url') params st
            = (some (StaticDataFetcher.filterStaticData d params), st) := by
          simp [FetchData.fetch, hc]
        rw [hstep]
        exact h
      | none =>
        cases ht : transport url' with
        | none =>
          have hstep : FetchData.fetch transport (Source.remote url') params st
              = (none, ⟨st.cache, st.calls + 1⟩) := by
            simp [FetchData.fetch, hc, ht]
          rw [hstep]
          exact h
        | some d =>
          have hne : url ≠ url' := by
            intro hco
            rw [hco] at h
            rw [h] at hc
            cases hc
          have hstep : FetchData.fetch transport (Source.remote url') params st
              = (some (StaticDataFetcher.filterStaticData d params),
                  ⟨(url', d) :: st.cache, st.calls + 1⟩) := by
            simp [FetchData.fetch, hc, ht]
          rw [hstep]
          show List.lookup url ((url', d) :: st.cache) = some data
          rw [List.lookup_cons]
          rw [show (url == url') = false from by simpa using hne]
          exact h
  · intro d params st'
    simp [FetchData.fetch]
  · intro url' d params hc ht
    simp [FetchData.fetch, hc, ht]

/-- Witness for C4 at a concrete cached state. -/
theorem fetchData_cache_spec_witness :
    cacheGet [("u", [[("a", "1")]])] "u" = some [[("a", "1")]] ∧
    FetchData.fetch (fun _ => none) (Source.remote "u") ⟨[], none, none⟩
        ⟨[("u", [[("a", "1")]])], 5⟩
      = (some (StaticDataFetcher.filterStaticData [[("a", "1")]] ⟨[], none, none⟩),
          ⟨[("u", [[("a", "1")]])], 5⟩) :=
  ⟨by decide,
    (fetchData_cache_spec (fun _ => none) "u" [[("a", "1")]]
        ⟨[("u", [[("a", "1")]])], 5⟩ (by decide)).1 ⟨[], none, none⟩⟩

/-- Heap of constructed DataCache objects: the recorded singleton object id,
the store of each constructed object, and the next fresh id. -/
structure DataCacheWorld where
  singletonInstance : Option Nat
  stores : List (Nat × List (String × List Record))
  nextId : Nat

/-- DataCache constructor, fetchApi.js lines 102 to 108: the first call
allocates the shared store and records the object; every later call
returns the recorded object unchanged. -/
def DataCache.construct (w : DataCacheWorld) : Nat × DataCacheWorld :=
  match w.singletonInstance with
  | some i => (i, w)
  | none => (w.nextId, ⟨some w.nextId, (w.nextId, []) :: w.stores, w.nextId + 1⟩)

/-- DataCache.get through an object id, fetchApi.js lines 115 to 117. -/
def DataCache.get (w : DataCacheWorld) (inst : Nat) (url : String) :
    Option (List Record) :=
  match List.lookup inst w.stores with
  | some store => List.lookup url store
  | none => none

/-- DataCache.set through an object id, fetchApi.js lines 124 to 126: the
store of that object gains the binding, the first binding of a url
shadowing the older ones. -/
def DataCache.set (w : DataCacheWorld) (inst : Nat) (url : String)
    (data : List Record) : DataCacheWorld :=
  ⟨w.singletonInstance,
    w.stores.map (fun p => if p.1 = inst then (p.1, (url, data) :: p.2) else p),
    w.nextId⟩

theorem lookup_set_store (stores : List (Nat × List (String × List Record)))
    (inst : Nat) (url : String) (data : List Record) (store : List (String × List Record))
    (h : List.lookup inst stores = some store) :
    List.lookup inst
        (stores.map (fun p => if p.1 = inst then (p.1, (url, data) :: p.2) else p))
      = some ((url, data) :: store) := by
  induction stores with
  | nil => cases h
  | cons p rest ih =>
    obtain ⟨k, s⟩ := p
    by_cases hp : k = inst
    · subst hp
      rw [List.lookup_cons] at h
      rw [show (k == k) = true from by simp] at h
      simp only [Option.some.injEq] at h
      subst h
      simp [List.lookup_cons]
    · rw [List.lookup_cons] at h
      rw [show (inst == k) = false from by simpa using fun he => hp he.symm] at h
      have hrec := ih h
      simp only [List.map_cons, if_neg hp, List.lookup_cons]
      rw [show (inst == k) = false from by simpa using fun he => hp he.symm]
      exact hrec

/-- C7: the cache is a process wide singleton: a second construction yields
the same object as the first, and a value stored through the first handle
is read back through the second.  The hypothesis states that a recorded
singleton object always owns a store, which the constructor guarantees. -/
theorem dataCache_singleton_spec (w : DataCacheWorld)
    (hw : ∀ i, w.singletonInstance = some i → (List.lookup i w.stores).isSome = true) :
    (DataCache.construct w).1 = (DataCache.construct (DataCache.construct w).2).1 ∧
    (DataCache.construct w).2 = (DataCache.construct (DataCache.construct w).2).2 ∧
    ∀ (url : String) (data : List Record),
      DataCache.get
          (DataCache.set (DataCache.construct (DataCache.construct w).2).2
            (DataCache.construct w).1 url data)
          (DataCache.construct (DataCache.construct w).2).1 url
        = some data := by
  cases hinst : w.singletonInstance with
  | some i =>
    have hstore := hw i hinst
    cases hs : List.lookup i w.stores with
    | none => rw [hs] at hstore; cases hstore
    | some store =>
      refine ⟨by simp [DataCache.construct, hinst], by simp [DataCache.construct, hinst], ?_⟩
      intro url data
      simp only [DataCache.construct, hinst]
      simp only [DataCache.get, DataCache.set]
      rw [lookup_set_store w.stores i url data store hs]
      simp [List.lookup_cons]
  | none =>
    refine ⟨by simp [DataCache.construct, hinst], by simp [DataCache.construct, hinst], ?_⟩
    intro url data
    simp only [DataCache.construct, hinst]
    simp only [DataCache.get, DataCache.set, List.map_cons, if_pos]
    simp [List.lookup_cons]

/-- Witness for C7 starting from the fresh world. -/
theorem dataCache_singleton_spec_witness :
    (DataCache.construct ⟨none, [], 0⟩).1
        = (DataCache.construct (DataCache.construct ⟨none, [], 0⟩).2).1 ∧
    DataCache.get
        (DataCache.set (DataCache.construct (DataCache.construct ⟨none, [], 0⟩).2).2
          (DataCache.construct ⟨none, [], 0⟩).1 "k" [[("a", "1")]])
        (DataCache.construct (DataCache.construct ⟨none, [], 0⟩).2).1 "k"
      = some [[("a", "1")]] :=
  ⟨(dataCache_singleton_spec ⟨none, [], 0⟩ (fun i h => by cases h)).1,
    (dataCache_singleton_spec ⟨none, [], 0⟩ (fun i h => by cases h)).2.2 "k" [[("a", "1")]]⟩

/-! Pagination planning, pagination.js (Paginator, PaginationButtons) and
paginationRenderer.js (PaginationRenderer). -/

/-- Optional pagination parameters as passed by a caller: absent fields are
none, matching an undefined property. -/
structure OptionalParams where
  onEachSide : Option Nat
  onEnds : Option Nat
  ellipsis : Option Bool
  firstLastButtons : Option Bool
  prevNextButtons : Option Bool

/-- Effective pagination parameters after the constructor merge. -/
structure MergedParams where
  onEachSide : Nat
  onEnds : Nat
  ellipsis : Bool
  firstLastButtons : Bool
  prevNextButtons : Bool
deriving DecidableEq

/-- The JavaScript pattern x || d for an optional boolean option: false and
absent both fall back to the default. -/
def jsOrBool : Option Bool → Bool → Bool
  | some b, d => b || d
  | none, d => d

/-- Option merge of the Paginator constructor, pagination.js lines 96 to
102: each field is value || default. -/
def Paginator.mergeOptionalParams (p : OptionalParams) : MergedParams :=
  ⟨orDefault p.onEachSide 1, orDefault p.onEnds 1, jsOrBool p.ellipsis true,
    jsOrBool p.firstLastButtons true, jsOrBool p.prevNextButtons true⟩

/-- Option merge of the PaginationButtons constructor, pagination.js lines
147 to 153: the same value || default pattern. -/
def PaginationButtons.mergeParams (p : OptionalParams) : MergedParams :=
  ⟨orDefault p.onEachSide 1, orDefault p.onEnds 1, jsOrBool p.ellipsis true,
    jsOrBool p.firstLastButtons true, jsOrBool p.prevNextButtons true⟩

/-- Math.ceil(count / limit) for a positive limit. -/
def ceilDiv (count limit : Nat) : Nat := (count + limit - 1) / limit

/-- PaginationButtons.generate, pagination.js lines 160 to 205, over the
count, limit and page of the owning Paginator and the merged optional
parameters.  The lead loop runs over the integers because its start can be
negative; every emitted page number is its decimal string.  The source
reads prev and next page labels from the firstLastButtons flag and never
consults prevNextButtons. -/
def PaginationButtons.generate (count limit currentPage : Nat)
    (params : MergedParams) : List String :=
  let totalPages := ceilDiv count limit
  let startPage := max 1 (currentPage - params.onEachSide)
  let endPage := min totalPages (currentPage + params.onEachSide)
  let firstNext :=
    if params.firstLastButtons && decide (currentPage > 1) then ["first", "next"] else []
  let leadPages :=
    if params.ellipsis && decide (currentPage > params.onEachSide) then
      ((((List.range params.onEnds).map
            (fun j => (startPage : Int) - (params.onEnds : Int) + (j : Int))).filter
          (fun i => decide (i > 1))).map (fun i => toString i)) ++ ["..."]
    else []
  let windowPages :=
    (List.range (endPage + 1 - startPage)).map (fun j => toString (startPage + j))
  let trailPages :=
    if params.ellipsis && decide (currentPage < totalPages - params.onEachSide) then
      "..." :: ((((List.range params.onEnds).map (fun j => endPage + 1 + j)).filter
          (fun i => decide (i < totalPages))).map (fun i => toString i))
    else []
  let prevLast :=
    if params.firstLastButtons && decide (currentPage < totalPages) then ["prev", "last"]
    else []
  firstNext ++ leadPages ++ windowPages ++ trailPages ++ prevLast

/-- One button of the renderer: the display text, the target page (none for
the inert ellipsis) and the active flag. -/
structure RenderButton where
  text : String
  page : Option Nat
  active : Bool
deriving DecidableEq

/-- PaginationRenderer.getPaginationButtons, paginationRenderer.js lines 68
to 104, with the fixed window radius delta = 2. -/
def PaginationRenderer.getPaginationButtons (currentPage totalPages : Nat) :
    List RenderButton :=
  let delta := 2
  let navFront :=
    if decide (currentPage > 1) then
      [⟨"First", some 1, false⟩, ⟨"Prev", some (currentPage - 1), false⟩]
    else []
  let rangeStart := max 1 (currentPage - delta)
  let rangeEnd := min totalPages (currentPage + delta)
  let nums :=
    (List.range (rangeEnd + 1 - rangeStart)).map
      (fun j =>
        (⟨toString (rangeStart + j), some (rangeStart + j),
          decide (rangeStart + j = currentPage)⟩ : RenderButton))
  let buttons := navFront ++ nums
  let buttons :=
    if decide (rangeStart > 2) then
      ⟨"1", some 1, false⟩ :: ⟨"...", none, false⟩ :: buttons
    else buttons
  let buttons :=
    if decide (rangeEnd < totalPages - 1) then
      buttons ++ [⟨"...", none, false⟩, ⟨toString totalPages, some totalPages, false⟩]
    else buttons
  if decide (currentPage < totalPages) then
    buttons ++ [⟨"Next", some (currentPage + 1), false⟩, ⟨"Last", some totalPages, false⟩]
  else buttons

/-- PaginationRenderer.renderPagination, paginationRenderer.js lines 25 to
50: with at most one page no buttons are rendered at all; otherwise the
buttons of getPaginationButtons are rendered in order. -/
def PaginationRenderer.renderPagination (currentPage totalPages : Nat) :
    List RenderButton :=
  if totalPages ≤ 1 then [] else PaginationRenderer.getPaginationButtons currentPage totalPages

/-- C5 evaluation at the failing inputs: PaginationButtons.generate emits a
prev token on page 1 of 10 and a next token on page 10 of 10, and emits
prev even when prevNextButtons is false; the claimed omission of boundary
controls fails on this generator, while getPaginationButtons of the
renderer does follow it. -/
theorem paginationButtons_boundary_bug_eval :
    "prev" ∈ PaginationButtons.generate 10 1 1 ⟨1, 1, true, true, true⟩ ∧
    "next" ∈ PaginationButtons.generate 10 1 10 ⟨1, 1, true, true, true⟩ ∧
    "prev" ∈ PaginationButtons.generate 10 1 1 ⟨1, 1, true, true, false⟩ ∧
    (∀ b ∈ PaginationRenderer.getPaginationButtons 1 10, b.text ≠ "Prev") ∧
    (∀ b ∈ PaginationRenderer.getPaginationButtons 10 10, b.text ≠ "Next") := by
  refine ⟨by decide, by decide, by decide, by decide, by decide⟩

/-- C6 counterexample: the claim fails as stated: with one total page the
generator returns the token "1", not an empty sequence, and the plan for
page 5 of 10 with onEachSide 1 and onEnds 1 does not include the token
"1". -/
theorem pagination_plan_counterexample :
    PaginationButtons.generate 1 10 1 ⟨1, 1, true, true, true⟩ ≠ [] ∧
    "1" ∉ PaginationButtons.generate 10 1 5 ⟨1, 1, true, true, true⟩ := by
  refine ⟨by decide, by decide⟩

/-- C6 amended: the empty plan at totalPages ≤ 1 holds at the renderer
level, renderPagination emitting no buttons, while the generator itself
returns the single token "1"; the generator plan for page 5 of 10 with
onEachSide 1 and onEnds 1 is exactly first, next, 3, ellipsis, 4, 5, 6,
ellipsis, 7, prev, last, its edge numerics being the pages adjacent to the
window rather than 1 and 10, with no duplicate page numbers; and the fixed
delta 2 renderer plan for page 5 of 10 does include the tokens 1, ellipsis,
4, 5, 6, ellipsis, 10 plus the First, Prev, Next, Last controls. -/
theorem pagination_plan_amended :
    PaginationButtons.generate 1 10 1 ⟨1, 1, true, true, true⟩ = ["1"] ∧
    PaginationRenderer.renderPagination 1 1 = [] ∧
    PaginationButtons.generate 10 1 5 ⟨1, 1, true, true, true⟩
      = ["first", "next", "3", "...", "4", "5", "6", "...", "7", "prev", "last"] ∧
    ((PaginationButtons.generate 10 1 5 ⟨1, 1, true, true, true⟩).filter
        (fun t => t ≠ "..." && t ≠ "first" && t ≠ "next" && t ≠ "prev" && t ≠ "last")).Nodup ∧
    (PaginationRenderer.renderPagination 5 10).map RenderButton.text
      = ["1", "...", "First", "Prev", "3", "4", "5", "6", "7", "...", "10", "Next", "Last"] := by
  refine ⟨by decide, by decide, by decide, by decide, by decide⟩

/-- C9: the constructor merges coerce explicit overrides back to the
defaults: ellipsis, firstLastButtons and prevNextButtons are true for every
input, a supplied false included, and a supplied zero for onEnds or
onEachSide comes back as one, in both the Paginator and the
PaginationButtons constructors. -/
theorem optionalParams_merge_coercion (p : OptionalParams) :
    (Paginator.mergeOptionalParams p).ellipsis = true ∧
    (Paginator.mergeOptionalParams p).firstLastButtons = true ∧
    (Paginator.mergeOptionalParams p).prevNextButtons = true ∧
    (PaginationButtons.mergeParams p).ellipsis = true ∧
    (PaginationButtons.mergeParams p).firstLastButtons = true ∧
    (PaginationButtons.mergeParams p).prevNextButtons = true ∧
    Paginator.mergeOptionalParams ⟨some 0, some 0, some false, some false, some false⟩
      = ⟨1, 1, true, true, true⟩ ∧
    PaginationButtons.mergeParams ⟨some 0, some 0, some false, some false, some false⟩
      = ⟨1, 1, true, true, true⟩ := by
  have hb : ∀ o : Option Bool, jsOrBool o true = true := by
    intro o
    cases o with
    | none => rfl
    | some b => cases b <;> rfl
  refine ⟨?_, ?_, ?_, ?_, ?_, ?_, by decide, by decide⟩ <;>
    simp [Paginator.mergeOptionalParams, PaginationButtons.mergeParams, hb]

end SimplifyTable
